import Mathlib

/-!
Shallow embedding of `src/detect.py` (yolov5-rt-stack command-line driver).

The script is straight-line orchestration code: it parses arguments, loads a
pretrained model, iterates over the image paths of a dataset, and for each path
runs a forward pass and post-processes the result, writing label files and
annotated images.  We embed it as a trace-producing computation: every side
effect (a file append, an image save, a console print, a forward pass) becomes
an `Event`, and Python's default exception propagation becomes the `Except`
layer of the `M` monad.  External calls (cv2, torch, the model from `hubconf`,
`utils.datasets.LoadImages`) are abstracted into an `Env` of oracles; pixel
values and tensor entries are rationals.
-/

namespace Detect

/-- A bounding box in corner (xyxy) form, one row of `pred['boxes']`. -/
structure Box where
  x0 : ℚ
  y0 : ℚ
  x1 : ℚ
  y1 : ℚ
deriving DecidableEq

/-- Modelled from the spec: the per-image prediction object produced by the
external model (`hubconf.yolov5`, not under `src/`): a dictionary holding the
detected boxes, their confidence scores and their class labels. -/
structure Pred where
  boxes : List Box
  scores : List ℚ
  labels : List ℤ
deriving DecidableEq

/-- Modelled from the spec: `len(pred)` for a prediction object, read as the
number of detections it holds (the external model is not under `src/`). -/
def predLen (p : Pred) : Nat := p.boxes.length

/-- The tuple `(boxes.tolist(), scores.tolist(), labels.tolist())` that
`overlay_boxes` returns (boxes already rounded, line 62). -/
abbrev Ret := List Box × List ℚ × List ℤ

/-- A rank-3 array/tensor: three extents and an entry function.  `cv2.imread`
yields shape (H, W, 3); `read_image` permutes it to (3, H, W). -/
structure Tensor3 where
  d0 : Nat
  d1 : Nat
  d2 : Nat
  val : Nat → Nat → Nat → ℚ

/-- Elementwise division by a scalar, as in `img /= 255.0` (line 33). -/
def divScalar (t : Tensor3) (c : ℚ) : Tensor3 :=
  ⟨t.d0, t.d1, t.d2, fun i j k => t.val i j k / c⟩

/-- `img.permute(2, 0, 1)` (line 35): axis order HWC becomes CHW. -/
def permute201 (t : Tensor3) : Tensor3 :=
  ⟨t.d2, t.d0, t.d1, fun i j k => t.val j k i⟩

/-- The torch device chosen on line 93. -/
inductive Device where
  | cpu
  | cuda
deriving DecidableEq

/-- `img.to(device)` (line 43) moves storage between devices; the values are
unchanged. -/
def toDevice (t : Tensor3) (_d : Device) : Tensor3 := t

/-- Modelled from the spec: the pretrained model loaded by `hubconf.yolov5`
(external, not under `src/`).  `stride` stands for
`model.box_head.stride.max()` (line 109); `forward` stands for `model([img])`,
the per-image list of predictions. -/
structure Model where
  stride : Nat
  forward : Tensor3 → List (Option Pred)

/-- The exceptions the script can raise.  `ioError` stands for any failure of
an external call (unreadable file, missing checkpoint, failed write);
`nameError` is Python's unbound-local error at the `return` of
`overlay_boxes` (line 88); `indexError` is Python's out-of-range list
indexing error, raised by `args.names[int(c)]` (line 67) and by the lookups
of lines 78-79. -/
inductive PyErr where
  | ioError (msg : String)
  | nameError
  | indexError
deriving DecidableEq

/-- The observable side effects of a run, in program order. -/
inductive Event where
  | parseArgs
  | loadModel (checkpoint : String)
  | warmup (size : Nat)
  | forwardPass (path : String)
  | appendTxt (file : String) (line : List ℚ)
  | printDone (idx : Nat) (summary : List (Nat × String))
  | saveImg (file : String) (drawn : List (Box × ℤ))
deriving DecidableEq

/-- A run fragment: the ordered side effects it performed, and either its value
or the exception it raised.  Side effects performed before an exception was
raised are kept. -/
abbrev M (α : Type) := List Event × Except PyErr α

/-- Sequencing with Python's default exception propagation: once a step raises,
nothing after it runs. -/
def mbind {α β : Type} (x : M α) (f : α → M β) : M β :=
  match x with
  | (evs, Except.error e) => (evs, Except.error e)
  | (evs, Except.ok a) => (evs ++ (f a).1, (f a).2)

/-- Record side effects and continue. -/
def memit (evs : List Event) : M Unit := (evs, Except.ok ())

/-- Run a fallible external call, recording `evs` when it succeeds. -/
def mtag {α : Type} (evs : List Event) (x : Except PyErr α) : M α :=
  match x with
  | Except.error e => ([], Except.error e)
  | Except.ok a => (evs, Except.ok a)

/-- The external world the script calls into: the file system (text reads,
image decodes, append-opens), the checkpoint loader, the dataset produced by
`utils.datasets.LoadImages` (its yielded paths and its `mode` attribute),
CUDA availability, and the random color generator of line 119. -/
structure Env where
  readLines : String → Except PyErr (List String)
  imread : String → Except PyErr Tensor3
  loadCheckpoint : String → String → Except PyErr Model
  appendOk : String → Option PyErr
  datasetPaths : String → List String
  datasetMode : String → String
  cudaAvailable : Bool
  randColors : Nat → List (List Nat)

/-- `load_names` (lines 22-27): open the label-map file, collect every line
stripped of surrounding whitespace.  A read failure propagates. -/
def load_names (env : Env) (category_path : String) : M (List String) :=
  match env.readLines category_path with
  | Except.error e => ([], Except.error e)
  | Except.ok ls => ([], Except.ok (ls.map String.trim))

/-- `read_image` (lines 30-36): decode the image (H, W, 3) with `cv2.imread`,
convert to a contiguous float32 array (`np.ascontiguousarray` keeps the pixel
values; uint8 to float32 is exact), divide every entry by 255.0, and permute
the axes to (3, H, W).  The `is_half` argument is accepted but never used by
the body.  An undecodable image makes the numpy conversion raise, which
propagates. -/
def read_image (env : Env) (img_name : String) ( is_half : Bool) : M Tensor3 :=
  match env.imread img_name with
  | Except.error e => ([], Except.error e)
  | Except.ok img => ([], Except.ok (permute201 (divScalar img 255)))

/-- `inference` (lines 39-48): `model.eval()` (a torch mode flag, no observable
effect here), re-read the image from disk, move it to the device, and run one
forward pass.  The measured wall-clock time is not modelled. -/
def inference (env : Env) (model : Model) (img_name : String) (dev : Device)
    ( is_half : Bool) : M (List (Option Pred)) :=
  mbind (read_image env img_name is_half) fun img =>
    ([Event.forwardPass img_name], Except.ok (model.forward (toDevice img dev)))

/-- `torch.round` on a scalar: round to the nearest integer, ties to even.
The floor is computed directly on the reduced fraction. -/
def roundHalfEven (q : ℚ) : ℤ :=
  let n := q.num.fdiv q.den
  let r := q - n
  if r < 1 / 2 then n
  else if 1 / 2 < r then n + 1
  else if n % 2 = 0 then n else n + 1

/-- `pred['boxes'].round()` (line 62) applied to one box: every coordinate is
rounded to a whole number (the tensor stays floating point). -/
def roundBox (b : Box) : Box :=
  ⟨(roundHalfEven b.x0 : ℚ), (roundHalfEven b.y0 : ℚ),
   (roundHalfEven b.x1 : ℚ), (roundHalfEven b.y1 : ℚ)⟩

/-- Modelled from the spec: `box_xyxy_to_cxcywh` lives in the external
`utils.general` (not under `src/`); it converts a corner-form box to
center-x, center-y, width, height form. -/
def box_xyxy_to_cxcywh (b : Box) : ℚ × ℚ × ℚ × ℚ :=
  ((b.x0 + b.x1) / 2, (b.y0 + b.y1) / 2, b.x1 - b.x0, b.y1 - b.y0)

/-- The label-file line written on line 75: `('%g ' * 5 + '\n') % (cls, *xywh)`,
five numbers: the class label, then the converted box. -/
def lineFor (cls : ℤ) (b : Box) : List ℚ :=
  [(cls : ℚ), (box_xyxy_to_cxcywh b).1, (box_xyxy_to_cxcywh b).2.1,
   (box_xyxy_to_cxcywh b).2.2.1, (box_xyxy_to_cxcywh b).2.2.2]

/-- Insert into a sorted list of integers. -/
def insertSorted (x : ℤ) : List ℤ → List ℤ
  | [] => [x]
  | y :: ys => if x ≤ y then x :: y :: ys else y :: insertSorted x ys

/-- Insertion sort for integers. -/
def sortInts : List ℤ → List ℤ
  | [] => []
  | x :: xs => insertSorted x (sortInts xs)

/-- `labels.unique()`: the distinct label values in ascending order. -/
def uniqueSorted (l : List ℤ) : List ℤ := sortInts l.dedup

/-- Python list indexing `xs[i]`: a negative index counts from the end, and
an out-of-range index raises `IndexError`. -/
def pyIndex {α : Type} (xs : List α) (i : ℤ) : Except PyErr α :=
  if i < 0 then
    if h : 0 ≤ i + (xs.length : ℤ) ∧ (i + (xs.length : ℤ)).toNat < xs.length then
      Except.ok (xs.get ⟨(i + (xs.length : ℤ)).toNat, h.2⟩)
    else Except.error PyErr.indexError
  else
    if h : i.toNat < xs.length then Except.ok (xs.get ⟨i.toNat, h⟩)
    else Except.error PyErr.indexError

/-- The loop of lines 65-67 over the remaining distinct classes: each step
counts the detections of class `c` and looks its name up with
`args.names[int(c)]`, which raises `IndexError` for a class outside the label
map; the first failure aborts. -/
def summaryLoop (names : List String) (labels : List ℤ) :
    List ℤ → Except PyErr (List (Nat × String))
  | [] => Except.ok []
  | c :: cs =>
    match pyIndex names c with
    | Except.error e => Except.error e
    | Except.ok nm =>
      match summaryLoop names labels cs with
      | Except.error e => Except.error e
      | Except.ok rest => Except.ok ((labels.count c, nm) :: rest)

/-- The per-class count summary built on lines 65-67: for every distinct class
`c` (ascending, as `labels.unique()` yields them), the number of detections of
that class and the class name `args.names[int(c)]`; the indexing can raise. -/
def classSummary (names : List String) (labels : List ℤ) :
    Except PyErr (List (Nat × String)) :=
  summaryLoop names labels (uniqueSorted labels)

/-- `pathlib.Path(p).name`: the final path component. -/
def pathName (p : String) : String := (p.splitOn "/").getLastD ""

/-- `pathlib.Path(p).stem`: the final component without its last suffix
(a leading-dot-only name such as `.bashrc` keeps the dot). -/
def pathStem (p : String) : String :=
  let n := pathName p
  match n.splitOn "." with
  | [] => n
  | [_] => n
  | "" :: [_] => n
  | parts => String.intercalate "." parts.dropLast

/-- The `args` object as `overlay_boxes` sees it: the parsed flags plus the
fields `main` adds (`webcam` on line 99, `mode` on line 115, `names` on
line 118, `colors` on line 119). -/
structure Args where
  output_dir : String
  save_txt : Bool
  save_img : Bool
  webcam : Bool
  mode : String
  names : List String
  colors : List (List Nat)

/-- Result of the write loop of lines 70-79 over the remaining detections:
the events it emitted, the boxes drawn onto the in-memory image so far, and
the exception, if any, raised while opening a label file. -/
structure WriteOut where
  evs : List Event
  drawn : List (Box × ℤ)
  err : Option PyErr

/-- The write loop of lines 70-79: for every detection (in order), append one
label line when `save_txt` is set (an append-open failure raises and aborts),
then, when `save_img` is set, look up `args.names[int(cls_name)]` (line 78)
and `args.colors[int(cls_name)]` (line 79) — either lookup raises
`IndexError` when out of range — and draw the box onto the image.  `conf`
only parameterizes the drawn label text. -/
def writeDetections (env : Env) (args : Args) (txtFile : String) :
    List (Box × ℚ × ℤ) → List (Box × ℤ) → WriteOut
  | [], drawn => ⟨[], drawn, none⟩
  | (xyxy, _conf, cls) :: rest, drawn =>
    if args.save_txt && (env.appendOk txtFile).isSome then
      ⟨[], drawn, env.appendOk txtFile⟩
    else
      let evs1 := if args.save_txt then [Event.appendTxt txtFile (lineFor cls xyxy)] else []
      if args.save_img then
        match pyIndex args.names cls with
        | Except.error e => ⟨evs1, drawn, some e⟩
        | Except.ok _ =>
          match pyIndex args.colors cls with
          | Except.error e => ⟨evs1, drawn, some e⟩
          | Except.ok _ =>
            let w := writeDetections env args txtFile rest (drawn ++ [(xyxy, cls)])
            ⟨evs1 ++ w.evs, w.drawn, w.err⟩
      else
        let w := writeDetections env args txtFile rest drawn
        ⟨evs1 ++ w.evs, w.drawn, w.err⟩

/-- Result of the loop of lines 55-86 over the remaining predictions: events,
the last values bound to the locals `boxes, scores, labels` (Python locals
survive loop iterations, and stay unbound if no iteration took the branch of
line 60), the boxes drawn so far, and the exception raised, if any. -/
structure LoopOut where
  evs : List Event
  bound : Option Ret
  drawn : List (Box × ℤ)
  err : Option PyErr

/-- The events of one iteration whose prediction is `None` or empty: the
`print` of line 82 (empty summary) and, when `save_img` is set and the dataset
mode is `images`, the `cv2.imwrite` of line 86 (with whatever has been drawn
on the image so far). -/
def skipStep (args : Args) (path : String) (i : Nat) (drawn : List (Box × ℤ)) : List Event :=
  Event.printDone i [] ::
    (if args.save_img && (args.mode == "images") then
      [Event.saveImg (args.output_dir ++ "/" ++ pathName path) drawn]
    else [])

/-- The loop of lines 55-86, iteration index `i`, locals threaded through. -/
def overlayLoop (env : Env) (args : Args) (path : String) :
    List (Option Pred) → Nat → Option Ret → List (Box × ℤ) → LoopOut
  | [], _, bound, drawn => ⟨[], bound, drawn, none⟩
  | pred :: rest, i, bound, drawn =>
    match pred with
    | some p =>
      if 0 < predLen p then
        -- line 62: bind boxes (rounded), scores, labels
        let boxes := p.boxes.map roundBox
        let rows := boxes.zip (p.scores.zip p.labels)
        -- lines 65-67: the summary runs first and may raise before any write
        match classSummary args.names p.labels with
        | Except.error e => ⟨[], some (boxes, p.scores, p.labels), drawn, some e⟩
        | Except.ok s =>
          let w := writeDetections env args
            (args.output_dir ++ "/" ++ pathStem path ++ ".txt") rows drawn
          match w.err with
          | some e => ⟨w.evs, some (boxes, p.scores, p.labels), w.drawn, some e⟩
          | none =>
            let evs2 := w.evs ++ [Event.printDone i s] ++
              (if args.save_img && (args.mode == "images") then
                [Event.saveImg (args.output_dir ++ "/" ++ pathName path) w.drawn]
              else [])
            let r := overlayLoop env args path rest (i + 1) (some (boxes, p.scores, p.labels)) w.drawn
            ⟨evs2 ++ r.evs, r.bound, r.drawn, r.err⟩
      else
        let r := overlayLoop env args path rest (i + 1) bound drawn
        ⟨skipStep args path i drawn ++ r.evs, r.bound, r.drawn, r.err⟩
    | none =>
      let r := overlayLoop env args path rest (i + 1) bound drawn
      ⟨skipStep args path i drawn ++ r.evs, r.bound, r.drawn, r.err⟩

/-- `overlay_boxes` (lines 51-88): run the loop, then execute the `return` of
line 88, which reads the locals `boxes, scores, labels`; if no iteration bound
them, Python raises an unbound-local error.  (The `cv2.imread` of line 53 only
feeds the drawing; the drawn boxes are carried in the `saveImg` events.) -/
def overlay_boxes (env : Env) (detections : List (Option Pred)) (path : String)
    (args : Args) : M Ret :=
  let r := overlayLoop env args path detections 0 none []
  match r.err with
  | some e => (r.evs, Except.error e)
  | none =>
    match r.bound with
    | some v => (r.evs, Except.ok v)
    | none => (r.evs, Except.error PyErr.nameError)

/-- The guard of line 60, negated: a prediction that is `None` or empty. -/
def emptyPred : Option Pred → Bool
  | none => true
  | some p => predLen p == 0

/-- Events that post-processing (`overlay_boxes`) can emit. -/
def isPostProcEvent : Event → Bool
  | Event.appendTxt _ _ => true
  | Event.printDone _ _ => true
  | Event.saveImg _ _ => true
  | _ => false

/-- Recognizer for the `saveImg` event (the `cv2.imwrite` of line 86). -/
def isSaveImgEv : Event → Bool
  | Event.saveImg _ _ => true
  | _ => false

/-- Recognizer for the checkpoint-load event (line 95). -/
def isLoadModelEv : Event → Bool
  | Event.loadModel _ => true
  | _ => false

/-- The parsed command-line arguments (lines 141-176).  `view_img`,
`conf_thres`, `iou_thres`, `classes`, `agnostic_nms` and `augment` are parsed
but never read by `main`. -/
structure ArgsIn where
  model_cfg : String
  checkpoint : String
  labelmap : String
  input_source : String
  output_dir : String
  img_size : Nat
  conf_thres : ℚ
  iou_thres : ℚ
  gpu : Bool
  view_img : Bool
  save_txt : Bool
  save_img : Bool
  classes : List ℤ
  agnostic_nms : Bool
  augment : Bool

/-- Line 93: use CUDA exactly when it is available and `--gpu` was passed. -/
def deviceOf (env : Env) (a : ArgsIn) : Device :=
  if env.cudaAvailable && a.gpu then Device.cuda else Device.cpu

/-- Lines 99-100: the `webcam` flag. -/
def isWebcam (src : String) : Bool :=
  ((src != "") && src.toList.all Char.isDigit)
    || src.startsWith "rtsp://" || src.startsWith "rtmp://" || src.startsWith "http://"
    || src.endsWith ".txt"

/-- Modelled from the spec: `check_img_size` from the external `utils.general`
rounds the requested inference size up to the nearest multiple of the model's
largest stride (line 109). -/
def check_img_size (x s : Nat) : Nat := ((x + s - 1) / s) * s

/-- The `args` object after `main` has added `webcam` (line 99), `mode`
(line 115), `names` (line 118) and `colors` (line 119). -/
def mainArgs (env : Env) (a : ArgsIn) (names : List String) : Args :=
  ⟨a.output_dir, a.save_txt, a.save_img, isWebcam a.input_source,
   env.datasetMode a.input_source, names, env.randColors names.length⟩

/-- One iteration of the loop of lines 128-133: run inference on the path,
then post-process its detections. -/
def imageStep (env : Env) (args : Args) (model : Model) (dev : Device)
    (p : String) : M Ret :=
  mbind (inference env model p dev false) fun dets =>
    overlay_boxes env dets p args

/-- The loop of lines 128-133 over the dataset's remaining paths. -/
def detectLoop (env : Env) (args : Args) (model : Model) (dev : Device) :
    List String → M Unit
  | [] => ([], Except.ok ())
  | p :: rest =>
    mbind (imageStep env args model dev p) fun _ =>
      detectLoop env args model dev rest

/-- `main` (lines 91-138): choose the device, load the model checkpoint (once),
compute the `webcam` flag, the checked image size and the dataset, load the
label names (and colors), run the warm-up forward pass on a zero tensor
(lines 123-126), then iterate the dataset.  `is_half` is hardcoded `False`
(line 106).  The closing `print`s have no modelled effect. -/
def main (env : Env) (a : ArgsIn) : M Unit :=
  let dev := deviceOf env a
  mbind (mtag [Event.loadModel a.checkpoint]
      (env.loadCheckpoint a.model_cfg a.checkpoint)) fun model =>
  let imgsz := check_img_size a.img_size model.stride
  let paths := env.datasetPaths a.input_source
  mbind (load_names env a.labelmap) fun names =>
  let args' := mainArgs env a names
  mbind (memit [Event.warmup imgsz]) fun _ =>
  detectLoop env args' model dev paths

/-- The `__main__` block (lines 141-181): parse the arguments, make the output
directory, call `main`. -/
def run_detect (env : Env) (a : ArgsIn) : M Unit :=
  mbind (memit [Event.parseArgs]) fun _ => main env a

/-- The label files on disk: for each path, the list of lines it holds. -/
def TxtFS := String → List (List ℚ)

/-- How one event changes the label files: an `appendTxt` opens the file in
mode `'a'` and appends one line; no event truncates or overwrites a label
file. -/
def applyEvent (fs : TxtFS) : Event → TxtFS
  | Event.appendTxt g line => fun q => if q = g then fs q ++ [line] else fs q
  | _ => fs

/-- Replay a list of events over the label files. -/
def applyEvents (fs : TxtFS) : List Event → TxtFS
  | [] => fs
  | e :: rest => applyEvents (applyEvent fs e) rest

/-- The lines a list of events appends to the label file `f`, in order. -/
def txtLines (f : String) : List Event → List (List ℚ)
  | [] => []
  | Event.appendTxt g line :: rest =>
    (if f = g then [line] else []) ++ txtLines f rest
  | _ :: rest => txtLines f rest

/-- Decidable equality of `Except` values, used to evaluate run results on
concrete inputs. -/
instance {ε α : Type} [DecidableEq ε] [DecidableEq α] :
    DecidableEq (Except ε α) := fun x y =>
  match x, y with
  | Except.error e1, Except.error e2 =>
    if h : e1 = e2 then Decidable.isTrue (congrArg Except.error h)
    else Decidable.isFalse (fun hc => h (Except.error.inj hc))
  | Except.error _, Except.ok _ => Decidable.isFalse (fun hc => Except.noConfusion hc)
  | Except.ok _, Except.error _ => Decidable.isFalse (fun hc => Except.noConfusion hc)
  | Except.ok a1, Except.ok a2 =>
    if h : a1 = a2 then Decidable.isTrue (congrArg Except.ok h)
    else Decidable.isFalse (fun hc => h (Except.ok.inj hc))

/-! Concrete data used to evaluate the theorems on closed inputs. -/

/-- A 1 x 1 test image whose three channels all hold 51. -/
def tensor0 : Tensor3 := ⟨1, 1, 3, fun _ _ _ => 51⟩

/-- A prediction with a single detection: box (0,0)-(2,2), score 9/10, class 1. -/
def pred0 : Pred := ⟨[⟨0, 0, 2, 2⟩], [9 / 10], [1]⟩

/-- A prediction whose single detection carries class 5, outside a two-name
label map. -/
def pred5 : Pred := ⟨[⟨0, 0, 2, 2⟩], [9 / 10], [5]⟩

/-- A model of stride 32 that always reports `pred0` for the one image. -/
def model0 : Model := ⟨32, fun _ => [some pred0]⟩

/-- A world where every external call succeeds. -/
def env0 : Env :=
  ⟨fun _ => Except.ok ["person", "car"], fun _ => Except.ok tensor0,
   fun _ _ => Except.ok model0, fun _ => none, fun _ => ["imgs/a.jpg"],
   fun _ => "images", false, fun _ => []⟩

/-- Like `env0` but only the file `imgs/a.jpg` is decodable. -/
def envB : Env :=
  ⟨fun _ => Except.ok ["person", "car"],
   fun n => if n = "imgs/a.jpg" then Except.ok tensor0 else Except.error PyErr.nameError,
   fun _ _ => Except.ok model0, fun _ => none, fun _ => ["imgs/a.jpg"],
   fun _ => "images", false, fun _ => []⟩

/-- Like `env0` but the checkpoint is missing. -/
def envE1 : Env :=
  ⟨fun _ => Except.ok ["person", "car"], fun _ => Except.ok tensor0,
   fun _ _ => Except.error (PyErr.ioError "ckpt"), fun _ => none,
   fun _ => ["imgs/a.jpg"], fun _ => "images", false, fun _ => []⟩

/-- Like `env0` but the label-map file is unreadable. -/
def envE2 : Env :=
  ⟨fun _ => Except.error (PyErr.ioError "labelmap"), fun _ => Except.ok tensor0,
   fun _ _ => Except.ok model0, fun _ => none, fun _ => ["imgs/a.jpg"],
   fun _ => "images", false, fun _ => []⟩

/-- Like `env0` but the image is unreadable. -/
def envE3 : Env :=
  ⟨fun _ => Except.ok ["person", "car"], fun _ => Except.error (PyErr.ioError "img"),
   fun _ _ => Except.ok model0, fun _ => none, fun _ => ["imgs/a.jpg"],
   fun _ => "images", false, fun _ => []⟩

/-- Like `env0` but opening any file for append fails. -/
def envE4 : Env :=
  ⟨fun _ => Except.ok ["person", "car"], fun _ => Except.ok tensor0,
   fun _ _ => Except.ok model0, fun _ => some (PyErr.ioError "disk"),
   fun _ => ["imgs/a.jpg"], fun _ => "images", false, fun _ => []⟩

/-- Like `env0` but the label-map file is empty, so the class-1 detection of
`pred0` is outside the label map. -/
def envE5 : Env :=
  ⟨fun _ => Except.ok [], fun _ => Except.ok tensor0,
   fun _ _ => Except.ok model0, fun _ => none, fun _ => ["imgs/a.jpg"],
   fun _ => "images", false, fun _ => []⟩

/-- Runtime args: neither save flag, dataset of still images. -/
def args0 : Args := ⟨"out", false, false, false, "images", ["person", "car"], []⟩

/-- Runtime args: both save flags, with a stream/video dataset and a color
per class name. -/
def argsW2 : Args :=
  ⟨"out", true, true, false, "video", ["person", "car"],
   [[0, 0, 0], [10, 20, 30]]⟩

/-- Runtime args: `save_img` set, but a stream/video dataset (a color per
class name, so drawing itself succeeds). -/
def argsV : Args :=
  ⟨"out", false, true, false, "video", ["person", "car"],
   [[0, 0, 0], [10, 20, 30]]⟩

/-- Runtime args: `save_txt` set, `save_img` not. -/
def args7 : Args := ⟨"out", true, false, false, "images", ["person", "car"], []⟩

/-- Parsed command-line arguments with neither save flag. -/
def a0 : ArgsIn :=
  ⟨"cfg.yaml", "ckpt.pt", "coco.names", "imgs", "out", 416, 2 / 5, 1 / 2,
   false, false, false, false, [], false, false⟩

/-- Parsed command-line arguments with `--save_txt`. -/
def a1 : ArgsIn :=
  ⟨"cfg.yaml", "ckpt.pt", "coco.names", "imgs", "out", 416, 2 / 5, 1 / 2,
   false, false, true, false, [], false, false⟩

/-! Helper lemmas about the monad and the loops. -/

/-- Sequencing after a step that raised keeps its events and its exception. -/
theorem mbind_of_err {α β : Type} (x : M α) (f : α → M β) {e : PyErr}
    (h : x.2 = Except.error e) : mbind x f = (x.1, Except.error e) := by
  obtain ⟨evs, r⟩ := x
  cases r with
  | error e2 => simp at h; subst h; rfl
  | ok b => simp at h

/-- Sequencing after a step that succeeded concatenates the events. -/
theorem mbind_of_ok {α β : Type} (x : M α) (f : α → M β) {a : α}
    (h : x.2 = Except.ok a) : mbind x f = (x.1 ++ (f a).1, (f a).2) := by
  obtain ⟨evs, r⟩ := x
  cases r with
  | error e2 => simp at h
  | ok b => simp at h; subst h; rfl

/-- `__main__` records the argument parsing and then behaves as `main`. -/
theorem run_detect_eq (env : Env) (a : ArgsIn) :
    run_detect env a = (Event.parseArgs :: (main env a).1, (main env a).2) := rfl

/-- `inference` on a decodable image: one forward pass on the freshly read
tensor. -/
theorem inference_of_ok {env : Env} {p : String} {img : Tensor3}
    (model : Model) (dev : Device) (b : Bool) (h : env.imread p = Except.ok img) :
    inference env model p dev b =
      ([Event.forwardPass p],
       Except.ok (model.forward (toDevice (permute201 (divScalar img 255)) dev))) := by
  unfold inference read_image
  rw [h]
  rfl

/-- `inference` on an unreadable image: the read error propagates, no forward
pass happens. -/
theorem inference_of_err {env : Env} {p : String} {e : PyErr}
    (model : Model) (dev : Device) (b : Bool) (h : env.imread p = Except.error e) :
    inference env model p dev b = ([], Except.error e) := by
  unfold inference read_image
  rw [h]
  rfl

/-- `pyIndex` succeeds on a nonnegative in-range index and yields that
element. -/
theorem pyIndex_ok {α : Type} (xs : List α) (i : ℤ) (h0 : 0 ≤ i)
    (hl : i.toNat < xs.length) :
    pyIndex xs i = Except.ok (xs.get ⟨i.toNat, hl⟩) := by
  unfold pyIndex
  rw [if_neg (by omega : ¬i < 0), dif_pos hl]

/-- `pyIndex` only ever raises `IndexError`. -/
theorem pyIndex_err {α : Type} {xs : List α} {i : ℤ} {e : PyErr}
    (h : pyIndex xs i = Except.error e) : e = PyErr.indexError := by
  unfold pyIndex at h
  split at h <;> split at h <;>
    first
      | exact (Except.error.inj h).symm
      | exact absurd h (by simp)

/-- The summary loop of lines 65-67 only ever raises `IndexError`. -/
theorem summaryLoop_err {names : List String} {labels : List ℤ} :
    ∀ {cs : List ℤ} {e : PyErr},
      summaryLoop names labels cs = Except.error e → e = PyErr.indexError := by
  intro cs
  induction cs with
  | nil => intro e h; exact absurd h (by simp [summaryLoop])
  | cons c cs2 ih =>
    intro e h
    rw [summaryLoop] at h
    rcases hp : pyIndex names c with e2 | nm
    · rw [hp] at h
      simp only [Except.error.injEq] at h
      exact h ▸ pyIndex_err hp
    · rw [hp] at h
      rcases hs : summaryLoop names labels cs2 with e3 | rest
      · rw [hs] at h
        simp only [Except.error.injEq] at h
        exact h ▸ ih hs
      · rw [hs] at h
        simp at h

/-- The per-class summary only ever raises `IndexError`. -/
theorem classSummary_err {names : List String} {labels : List ℤ} {e : PyErr}
    (h : classSummary names labels = Except.error e) : e = PyErr.indexError :=
  summaryLoop_err h

/-- Membership in `insertSorted`. -/
theorem mem_insertSorted {x y : ℤ} (l : List ℤ) :
    y ∈ insertSorted x l ↔ y = x ∨ y ∈ l := by
  induction l with
  | nil => simp [insertSorted]
  | cons z zs ih =>
    by_cases h : x ≤ z
    · simp [insertSorted, h]
    · simp [insertSorted, h, ih]
      tauto

/-- `sortInts` keeps exactly the values of its input. -/
theorem mem_sortInts {y : ℤ} (l : List ℤ) : y ∈ sortInts l ↔ y ∈ l := by
  induction l with
  | nil => simp [sortInts]
  | cons z zs ih => simp [sortInts, mem_insertSorted, ih]

/-- `labels.unique()` yields exactly the values occurring in `labels`. -/
theorem mem_uniqueSorted {y : ℤ} (l : List ℤ) : y ∈ uniqueSorted l ↔ y ∈ l := by
  simp [uniqueSorted, mem_sortInts, List.mem_dedup]

/-- When every listed class is within the label map, the summary loop
succeeds and pairs each class's count with its name. -/
theorem summaryLoop_ok (names : List String) (labels : List ℤ)
    (cs : List ℤ) (h : ∀ c ∈ cs, 0 ≤ c ∧ c.toNat < names.length) :
    summaryLoop names labels cs =
      Except.ok (cs.map fun c => (labels.count c, names.getD c.toNat "")) := by
  induction cs with
  | nil => rfl
  | cons c cs2 ih =>
    obtain ⟨h0, hl⟩ := h c (List.mem_cons_self c cs2)
    rw [summaryLoop, pyIndex_ok names c h0 hl,
      ih (fun q hq => h q (List.mem_cons_of_mem c hq))]
    simp [List.getD_eq_getElem, hl, List.get_eq_getElem]

/-- When every detected class is within the label map, the per-class summary
of lines 65-67 succeeds with one count-name pair per distinct class. -/
theorem classSummary_ok (names : List String) (labels : List ℤ)
    (h : ∀ c ∈ labels, 0 ≤ c ∧ c.toNat < names.length) :
    classSummary names labels =
      Except.ok ((uniqueSorted labels).map fun c =>
        (labels.count c, names.getD c.toNat "")) :=
  summaryLoop_ok names labels (uniqueSorted labels)
    (fun c hc => h c ((mem_uniqueSorted labels).mp hc))

/-- With append-opens on the label file succeeding, the write loop raises at
most the indexing error of lines 78-79. -/
theorem wd_err_shape (env : Env) (args : Args) {t : String}
    (hW : env.appendOk t = none) (rows : List (Box × ℚ × ℤ))
    (drawn : List (Box × ℤ)) :
    (writeDetections env args t rows drawn).err = none ∨
      (writeDetections env args t rows drawn).err = some PyErr.indexError := by
  induction rows generalizing drawn with
  | nil => exact Or.inl rfl
  | cons r rest ih =>
    obtain ⟨xyxy, conf, cls⟩ := r
    cases hsi : args.save_img with
    | false =>
      have h2 := ih drawn
      rcases h2 with h2 | h2 <;> simp [writeDetections, hW, hsi, h2]
    | true =>
      rcases hn : pyIndex args.names cls with e1 | nm
      · have he := pyIndex_err hn
        subst he
        simp [writeDetections, hW, hsi, hn]
      · rcases hc : pyIndex args.colors cls with e2 | col
        · have he := pyIndex_err hc
          subst he
          simp [writeDetections, hW, hsi, hn, hc]
        · have h2 := ih (drawn ++ [(xyxy, cls)])
          rcases h2 with h2 | h2 <;>
            simp [writeDetections, hW, hsi, hn, hc, h2]

/-- Every event of the write loop is a post-processing event. -/
theorem wd_evs_post (env : Env) (args : Args) (t : String)
    (rows : List (Box × ℚ × ℤ)) (drawn : List (Box × ℤ)) :
    (writeDetections env args t rows drawn).evs.all isPostProcEvent = true := by
  induction rows generalizing drawn with
  | nil => rfl
  | cons r rest ih =>
    obtain ⟨xyxy, conf, cls⟩ := r
    by_cases h : (args.save_txt && (env.appendOk t).isSome) = true
    · simp [writeDetections, h]
    · cases hsi : args.save_img with
      | false =>
        cases hs : args.save_txt <;>
          simp_all [writeDetections, h, hs, hsi, isPostProcEvent] <;>
          exact ih _
      | true =>
        rcases hn : pyIndex args.names cls with e1 | nm
        · cases hs : args.save_txt <;>
            simp_all [writeDetections, h, hs, hsi, hn, isPostProcEvent]
        · rcases hc : pyIndex args.colors cls with e2 | col
          · cases hs : args.save_txt <;>
              simp_all [writeDetections, h, hs, hsi, hn, hc, isPostProcEvent]
          · cases hs : args.save_txt <;>
              simp_all [writeDetections, h, hs, hsi, hn, hc, isPostProcEvent] <;>
              exact ih _

/-- With `save_txt` set, appends succeeding and `save_img` off, the write
loop appends exactly one line per detection and draws nothing. -/
theorem wd_eq_noimg (env : Env) (args : Args) {t : String}
    (hW : env.appendOk t = none) (hst : args.save_txt = true)
    (hsi : args.save_img = false) (rows : List (Box × ℚ × ℤ))
    (drawn : List (Box × ℤ)) :
    writeDetections env args t rows drawn =
      ⟨rows.map (fun r => Event.appendTxt t (lineFor r.2.2 r.1)), drawn, none⟩ := by
  induction rows generalizing drawn with
  | nil => rfl
  | cons r rest ih =>
    obtain ⟨xyxy, conf, cls⟩ := r
    simp [writeDetections, hW, hst, hsi, ih]

/-- With both flags set, appends succeeding and every written class within
both the label map and the color table, the write loop appends one line per
detection and draws every box. -/
theorem wd_eq_img (env : Env) (args : Args) {t : String}
    (hW : env.appendOk t = none) (hst : args.save_txt = true)
    (hsi : args.save_img = true) (rows : List (Box × ℚ × ℤ))
    (drawn : List (Box × ℤ))
    (hni : ∀ r ∈ rows, 0 ≤ r.2.2 ∧ r.2.2.toNat < args.names.length)
    (hci : ∀ r ∈ rows, 0 ≤ r.2.2 ∧ r.2.2.toNat < args.colors.length) :
    writeDetections env args t rows drawn =
      ⟨rows.map (fun r => Event.appendTxt t (lineFor r.2.2 r.1)),
       drawn ++ rows.map (fun r => (r.1, r.2.2)), none⟩ := by
  revert hni hci
  induction rows generalizing drawn with
  | nil =>
    intro hni hci
    simp [writeDetections]
  | cons r rest ih =>
    intro hni hci
    obtain ⟨xyxy, conf, cls⟩ := r
    obtain ⟨hn0, hnl⟩ := hni (xyxy, conf, cls) (List.mem_cons_self _ _)
    obtain ⟨hc0, hcl⟩ := hci (xyxy, conf, cls) (List.mem_cons_self _ _)
    have ih2 := ih (drawn ++ [(xyxy, cls)])
      (fun q hq => hni q (List.mem_cons_of_mem _ hq))
      (fun q hq => hci q (List.mem_cons_of_mem _ hq))
    simp [writeDetections, hW, hst, hsi, pyIndex_ok args.names cls hn0 hnl,
      pyIndex_ok args.colors cls hc0 hcl, ih2]

/-- Every event of the per-prediction loop is a post-processing event. -/
theorem ol_evs_post (env : Env) (args : Args) (path : String)
    (dets : List (Option Pred)) (i : Nat) (bound : Option Ret)
    (drawn : List (Box × ℤ)) :
    (overlayLoop env args path dets i bound drawn).evs.all isPostProcEvent = true := by
  induction dets generalizing i bound drawn with
  | nil => rfl
  | cons pred rest ih =>
    cases pred with
    | none =>
      cases hc : (args.save_img && (args.mode == "images")) <;>
        simp [overlayLoop, skipStep, hc, isPostProcEvent, ih]
    | some p =>
      by_cases hl : 0 < predLen p
      · rcases hsum : classSummary args.names p.labels with e | s
        · simp [overlayLoop, hl, hsum]
        · rcases hw : (writeDetections env args
              (args.output_dir ++ "/" ++ pathStem path ++ ".txt")
              ((p.boxes.map roundBox).zip (p.scores.zip p.labels)) drawn).err with _ | e
          · have hp := wd_evs_post env args
              (args.output_dir ++ "/" ++ pathStem path ++ ".txt")
              ((p.boxes.map roundBox).zip (p.scores.zip p.labels)) drawn
            cases hc : (args.save_img && (args.mode == "images")) <;>
              simp_all [overlayLoop, hl, hsum, hw, hc, isPostProcEvent] <;>
              exact ih _ _ _
          · have hp := wd_evs_post env args
              (args.output_dir ++ "/" ++ pathStem path ++ ".txt")
              ((p.boxes.map roundBox).zip (p.scores.zip p.labels)) drawn
            simp_all [overlayLoop, hl, hsum, hw]
      · cases hc : (args.save_img && (args.mode == "images")) <;>
          simp [overlayLoop, skipStep, hl, hc, isPostProcEvent, ih]

/-- A per-prediction loop over only `None`/empty predictions raises
nothing (the branch of lines 62-79 never runs). -/
theorem ol_err_none_of_empty (env : Env) (args : Args) (path : String)
    (dets : List (Option Pred)) (i : Nat) (bound : Option Ret)
    (drawn : List (Box × ℤ)) (h : dets.all emptyPred = true) :
    (overlayLoop env args path dets i bound drawn).err = none := by
  induction dets generalizing i bound drawn with
  | nil => rfl
  | cons pred rest ih =>
    rw [List.all_cons, Bool.and_eq_true] at h
    cases pred with
    | none => simp [overlayLoop, ih _ _ _ h.2]
    | some p =>
      have hl : ¬0 < predLen p := by
        have h1 := h.1
        simp [emptyPred] at h1
        omega
      simp [overlayLoop, hl, ih _ _ _ h.2]

/-- With append-opens on the label file succeeding, the loop can raise the
indexing error of lines 67/78-79 but never the unbound-local error. -/
theorem ol_err_not_nameError {env : Env} {args : Args} {path : String}
    (hW : env.appendOk (args.output_dir ++ "/" ++ pathStem path ++ ".txt") = none)
    (dets : List (Option Pred)) (i : Nat) (bound : Option Ret)
    (drawn : List (Box × ℤ)) :
    (overlayLoop env args path dets i bound drawn).err ≠ some PyErr.nameError := by
  induction dets generalizing i bound drawn with
  | nil => simp [overlayLoop]
  | cons pred rest ih =>
    cases pred with
    | none =>
      simp only [overlayLoop]
      exact ih _ _ _
    | some p =>
      by_cases hl : 0 < predLen p
      · rcases hsum : classSummary args.names p.labels with e | s
        · have he := classSummary_err hsum
          subst he
          simp [overlayLoop, hl, hsum]
        · rcases hw : (writeDetections env args
              (args.output_dir ++ "/" ++ pathStem path ++ ".txt")
              ((p.boxes.map roundBox).zip (p.scores.zip p.labels)) drawn).err with _ | e
          · simp only [overlayLoop, hl, if_true, hsum, hw]
            simp [hl, hsum, hw]
            exact ih _ _ _
          · have hsh := wd_err_shape env args hW
              ((p.boxes.map roundBox).zip (p.scores.zip p.labels)) drawn
            rw [hw] at hsh
            rcases hsh with h1 | h1
            · exact absurd h1 (by simp)
            · have he : e = PyErr.indexError := Option.some.inj h1
              subst he
              simp [overlayLoop, hl, hsum, hw]
      · simp only [overlayLoop]
        simp [hl]
        exact ih _ _ _

/-- The locals of line 62 end up unbound exactly when they start unbound and
every prediction of the list is `None` or empty. -/
theorem ol_bound_none (env : Env) (args : Args) (path : String)
    (dets : List (Option Pred)) (i : Nat) (bound : Option Ret)
    (drawn : List (Box × ℤ)) :
    ((overlayLoop env args path dets i bound drawn).bound = none ↔
      (bound = none ∧ dets.all emptyPred = true)) := by
  induction dets generalizing i bound drawn with
  | nil => simp [overlayLoop]
  | cons pred rest ih =>
    cases pred with
    | none => simp [overlayLoop, emptyPred, ih]
    | some p =>
      by_cases hl : 0 < predLen p
      · have hne : predLen p ≠ 0 := Nat.pos_iff_ne_zero.mp hl
        rcases hsum : classSummary args.names p.labels with e | s
        · simp [overlayLoop, hl, hsum, emptyPred, hne]
        · rcases hw : (writeDetections env args
              (args.output_dir ++ "/" ++ pathStem path ++ ".txt")
              ((p.boxes.map roundBox).zip (p.scores.zip p.labels)) drawn).err with _ | e
          · simp [overlayLoop, hl, hsum, hw, ih, emptyPred, hne]
          · simp [overlayLoop, hl, hsum, hw, emptyPred, hne]
      · have h0 : predLen p = 0 := Nat.le_zero.mp (Nat.not_lt.mp hl)
        simp [overlayLoop, hl, ih, emptyPred, h0]

/-- Every event `overlay_boxes` emits is a post-processing event. -/
theorem overlay_evs_post (env : Env) (dets : List (Option Pred)) (path : String)
    (args : Args) :
    (overlay_boxes env dets path args).1.all isPostProcEvent = true := by
  unfold overlay_boxes
  have hp := ol_evs_post env args path dets 0 none []
  rcases he : (overlayLoop env args path dets 0 none []).err with _ | e
  · rcases hb : (overlayLoop env args path dets 0 none []).bound with _ | v <;>
      simp_all
  · simp_all

/-- A successful image step starts with its forward pass and continues with
post-processing events only. -/
theorem imageStep_shape {env : Env} {args : Args} {model : Model} {dev : Device}
    {p : String} {r : Ret} (h : (imageStep env args model dev p).2 = Except.ok r) :
    ∃ tl, (imageStep env args model dev p).1 = Event.forwardPass p :: tl ∧
      tl.all isPostProcEvent = true := by
  rcases hi : env.imread p with e | img
  · exfalso
    have h2 := inference_of_err model dev false hi
    have h1 : imageStep env args model dev p = ([], Except.error e) := by
      unfold imageStep
      rw [mbind_of_err _ _ (by rw [h2]), h2]
    rw [h1] at h
    simp at h
  · have h2 := inference_of_ok model dev false hi
    have h3 : (inference env model p dev false).2 =
        Except.ok (model.forward (toDevice (permute201 (divScalar img 255)) dev)) := by
      rw [h2]
    have h4 := mbind_of_ok (inference env model p dev false)
      (fun dets => overlay_boxes env dets p args) h3
    rw [h2] at h4
    refine ⟨(overlay_boxes env
        (model.forward (toDevice (permute201 (divScalar img 255)) dev)) p args).1,
      ?_, overlay_evs_post env _ p args⟩
    show (imageStep env args model dev p).1 = _
    unfold imageStep
    rw [h2, h4]
    rfl

/-- A loop run that ends in `ok` is the concatenation of one independent
segment per dataset path, each segment itself successful. -/
theorem detectLoop_ok (env : Env) (args : Args) (model : Model) (dev : Device)
    (ps : List String) (h : (detectLoop env args model dev ps).2 = Except.ok ()) :
    (detectLoop env args model dev ps).1 =
        ps.flatMap (fun p => (imageStep env args model dev p).1) ∧
      ∀ p ∈ ps, ∃ r, (imageStep env args model dev p).2 = Except.ok r := by
  induction ps with
  | nil => simp [detectLoop]
  | cons p rest ih =>
    rcases hs : (imageStep env args model dev p).2 with e | r
    · exfalso
      have hd := mbind_of_err (imageStep env args model dev p)
        (fun _ => detectLoop env args model dev rest) hs
      rw [detectLoop, hd] at h
      simp at h
    · have hd := mbind_of_ok (imageStep env args model dev p)
        (fun _ => detectLoop env args model dev rest) hs
      rw [detectLoop, hd] at h
      simp only [] at h
      obtain ⟨h1, h2⟩ := ih h
      constructor
      · rw [detectLoop, hd]
        simp [h1]
      · intro q hq
        rcases List.mem_cons.mp hq with rfl | hq2
        · exact ⟨r, hs⟩
        · exact h2 q hq2

/-- Replaying events appends exactly the appended lines to each label file. -/
theorem applyEvents_txt (evs : List Event) (fs : TxtFS) (f : String) :
    applyEvents fs evs f = fs f ++ txtLines f evs := by
  induction evs generalizing fs with
  | nil => simp [applyEvents, txtLines]
  | cons e rest ih =>
    cases e with
    | appendTxt g line =>
      rw [applyEvents, ih]
      by_cases hf : f = g <;> simp [applyEvent, txtLines, hf]
    | parseArgs => rw [applyEvents, ih]; simp [applyEvent, txtLines]
    | loadModel c => rw [applyEvents, ih]; simp [applyEvent, txtLines]
    | warmup s => rw [applyEvents, ih]; simp [applyEvent, txtLines]
    | forwardPass q => rw [applyEvents, ih]; simp [applyEvent, txtLines]
    | printDone j s => rw [applyEvents, ih]; simp [applyEvent, txtLines]
    | saveImg g d => rw [applyEvents, ih]; simp [applyEvent, txtLines]

/-- A post-processing event is never the checkpoint-load event. -/
theorem post_not_loadModel {e : Event} (h : isPostProcEvent e = true) :
    isLoadModelEv e = false := by
  cases e <;> simp_all [isPostProcEvent, isLoadModelEv]

/-- The per-path segments of a run contain no checkpoint-load event. -/
theorem bind_countP_loadModel_zero (env : Env) (args : Args) (model : Model)
    (dev : Device) (ps : List String)
    (h : ∀ p ∈ ps, ∃ tl, (imageStep env args model dev p).1 =
      Event.forwardPass p :: tl ∧ tl.all isPostProcEvent = true) :
    (ps.flatMap fun p => (imageStep env args model dev p).1).countP isLoadModelEv = 0 := by
  induction ps with
  | nil => rfl
  | cons p rest ih =>
    obtain ⟨tl, h1, h2⟩ := h p (List.mem_cons_self p rest)
    have htl : tl.countP isLoadModelEv = 0 := by
      rw [List.countP_eq_zero]
      intro e he
      simp [post_not_loadModel (List.all_eq_true.mp h2 e he)]
    rw [List.flatMap_cons, List.countP_append, h1, List.countP_cons, htl]
    have h5 := ih fun q hq => h q (List.mem_cons_of_mem p hq)
    simp [isLoadModelEv, h5]

/-! The claims.  Batteries marks the rational operations `@[irreducible]`,
which blocks evaluating the embedding on closed inputs; restore the default
reducibility locally so concrete runs can be decided. -/

section ClaimEval

attribute [local semireducible] Rat.add Rat.sub Rat.mul Rat.inv

/-- C10: `read_image` ignores its `is_half` parameter entirely: for every
environment and image name, the calls with `True` and with `False` return the
same result, so the half-precision flag threaded through `inference` has no
effect on the image tensor either. -/
theorem c10_is_half_ignored (env : Env) (img_name : String) (model : Model)
    (dev : Device) :
    read_image env img_name true = read_image env img_name false ∧
      inference env model img_name dev true = inference env model img_name dev false :=
  ⟨rfl, rfl⟩

/-- C6: `read_image` on a successfully decoded (H, W, 3) image with byte-valued
pixels returns a tensor of shape (3, H, W) whose every entry is the loaded
pixel value divided by 255, hence within [0, 1]. -/
theorem c6_read_image (env : Env) (p : String) (b : Bool) (img : Tensor3)
    (h : env.imread p = Except.ok img) (h3 : img.d2 = 3)
    (hv : ∀ i j k : Nat, ∃ m : Nat, m ≤ 255 ∧ img.val i j k = m) :
    ∃ t : Tensor3, read_image env p b = ([], Except.ok t) ∧
      t.d0 = 3 ∧ t.d1 = img.d0 ∧ t.d2 = img.d1 ∧
      (∀ i j k : Nat, t.val i j k = img.val j k i / 255) ∧
      (∀ i j k : Nat, 0 ≤ t.val i j k ∧ t.val i j k ≤ 1) := by
  refine ⟨permute201 (divScalar img 255), ?_, h3, rfl, rfl, fun i j k => rfl, ?_⟩
  · unfold read_image
    rw [h]
  · intro i j k
    obtain ⟨m, hm, he⟩ := hv j k i
    constructor
    · show 0 ≤ img.val j k i / 255
      rw [he]
      positivity
    · show img.val j k i / 255 ≤ 1
      rw [he, div_le_one (by norm_num)]
      exact_mod_cast hm.trans (by norm_num)

/-- Witness for C6 at a concrete 1 x 1 image whose channels hold 51. -/
theorem c6_read_image_w :
    ∃ t : Tensor3, read_image env0 "imgs/a.jpg" false = ([], Except.ok t) ∧
      t.d0 = 3 ∧ t.d1 = tensor0.d0 ∧ t.d2 = tensor0.d1 ∧
      (∀ i j k : Nat, t.val i j k = tensor0.val j k i / 255) ∧
      (∀ i j k : Nat, 0 ≤ t.val i j k ∧ t.val i j k ≤ 1) :=
  c6_read_image env0 "imgs/a.jpg" false tensor0 rfl rfl
    (fun _ _ _ => ⟨51, by norm_num, rfl⟩)

/-- C5: the detections for an image depend only on that image's file contents,
the model and the device: two worlds agreeing on the image's bytes give
identical `inference` results, and every `inference` call recomputes the
tensor from the file contents it reads at that moment (no reuse of an earlier
read). -/
theorem c5_stateless (env1 env2 : Env) (model : Model) (dev : Device)
    (p : String) (b : Bool) (h : env1.imread p = env2.imread p) :
    inference env1 model p dev b = inference env2 model p dev b ∧
      ∀ img : Tensor3, env1.imread p = Except.ok img →
        inference env1 model p dev b =
          ([Event.forwardPass p],
           Except.ok (model.forward (toDevice (permute201 (divScalar img 255)) dev))) := by
  constructor
  · unfold inference read_image
    rw [h]
  · intro img hi
    exact inference_of_ok model dev b hi

/-- Witness for C5: `env0` and `envB` agree on `imgs/a.jpg` but differ on
every other path. -/
theorem c5_stateless_w :
    inference env0 model0 "imgs/a.jpg" Device.cpu false =
        inference envB model0 "imgs/a.jpg" Device.cpu false ∧
      ∀ img : Tensor3, env0.imread "imgs/a.jpg" = Except.ok img →
        inference env0 model0 "imgs/a.jpg" Device.cpu false =
          ([Event.forwardPass "imgs/a.jpg"],
           Except.ok (model0.forward (toDevice (permute201 (divScalar img 255)) Device.cpu))) :=
  c5_stateless env0 envB model0 Device.cpu "imgs/a.jpg" false (by simp [env0, envB])

/-- C9: label files are append-only.  Replaying the events of any
`overlay_boxes` call onto the label files never truncates or overwrites one
(the old content stays an initial segment), and replaying the same call's
events twice — two runs on the same image with the same output directory —
leaves each label file holding the one run's lines twice over. -/
theorem c9_append_mode (env : Env) (dets : List (Option Pred)) (path : String)
    (args : Args) (fs : TxtFS) (f : String) :
    (∃ t, applyEvents fs (overlay_boxes env dets path args).1 f = fs f ++ t) ∧
      applyEvents (applyEvents fs (overlay_boxes env dets path args).1)
          (overlay_boxes env dets path args).1 f =
        fs f ++ (txtLines f (overlay_boxes env dets path args).1 ++
          txtLines f (overlay_boxes env dets path args).1) := by
  constructor
  · exact ⟨txtLines f (overlay_boxes env dets path args).1, applyEvents_txt _ _ _⟩
  · rw [applyEvents_txt, applyEvents_txt, List.append_assoc]

/-- C8 counterexample: a detections list whose final element is `None` but
whose first prediction is non-empty makes `overlay_boxes` return normally
(Python locals persist across loop iterations), contradicting the claim that
every such list raises an unbound-variable error. -/
theorem c8_cex :
    (overlay_boxes env0 [some pred0, none] "imgs/a.jpg" args0).2 =
      Except.ok ([(⟨0, 0, 2, 2⟩ : Box)], [(9 : ℚ) / 10], [(1 : ℤ)]) := by
  decide

/-- C8 (amended): assuming label-file append-opens succeed, `overlay_boxes`
raises the unbound-local error exactly when no prediction in the list is
non-`None` and non-empty (in particular for an empty list, an all-`None`
list, or an image with zero detections); when at least one is, the `return`
reads the locals bound by the last such prediction and the call returns
normally. -/
theorem c8_amended (env : Env) (args : Args) (path : String)
    (dets : List (Option Pred))
    (hW : env.appendOk (args.output_dir ++ "/" ++ pathStem path ++ ".txt") = none) :
    ((overlay_boxes env dets path args).2 = Except.error PyErr.nameError ↔
      dets.all emptyPred = true) := by
  unfold overlay_boxes
  rcases he : (overlayLoop env args path dets 0 none []).err with _ | e
  · rcases hb : (overlayLoop env args path dets 0 none []).bound with _ | v
    · have hall : dets.all emptyPred = true :=
        ((ol_bound_none env args path dets 0 none []).mp hb).2
      simp [he, hb, hall]
    · have hnall : ¬dets.all emptyPred = true := by
        intro hall
        have h2 := (ol_bound_none env args path dets 0 none []).mpr ⟨rfl, hall⟩
        rw [hb] at h2
        exact Option.noConfusion h2
      simp [he, hb, hnall]
  · have hne : e ≠ PyErr.nameError := by
      intro h2
      subst h2
      exact ol_err_not_nameError hW dets 0 none [] he
    have hnall : ¬dets.all emptyPred = true := by
      intro hall
      rw [ol_err_none_of_empty env args path dets 0 none [] hall] at he
      exact Option.noConfusion he
    simp [he, hne, hnall]

/-- Witness for C8 (amended): a single `None` prediction raises the
unbound-local error. -/
theorem c8_amended_w :
    (overlay_boxes env0 [none] "imgs/a.jpg" args0).2 =
      Except.error PyErr.nameError :=
  (c8_amended env0 args0 "imgs/a.jpg" [none] rfl).mpr (by decide)

/-- C2 counterexample: with `save_img` set but a stream/video dataset
(`mode` is not `images`), a non-empty prediction is processed normally yet no
annotated image is ever written — the `cv2.imwrite` of line 86 is guarded by
`args.mode == 'images'`.  This refutes the claim that the annotated copy is
written for stream inputs as well. -/
theorem c2_cex :
    argsV.save_img = true ∧ argsV.mode = "video" ∧
      (overlay_boxes env0 [some pred0] "imgs/a.jpg" argsV).2 =
        Except.ok ([(⟨0, 0, 2, 2⟩ : Box)], [(9 : ℚ) / 10], [(1 : ℤ)]) ∧
      (overlay_boxes env0 [some pred0] "imgs/a.jpg" argsV).1.all
        (fun e => !isSaveImgEv e) = true := by
  decide

/-- C2 (amended): for a non-empty prediction whose detected classes lie
within the label map and the color table, with appends succeeding: when
`save_txt` is set one label line per detection is appended to
`<output_dir>/<stem>.txt`, in every dataset mode; when `save_img` is set
every detection's box is drawn, but the annotated image is written to
`<output_dir>/<name>` only when the dataset mode is `images` — stream/video
inputs get label files only, never an image. -/
theorem c2_amended (env : Env) (args : Args) (path : String) (p : Pred)
    (hW : env.appendOk (args.output_dir ++ "/" ++ pathStem path ++ ".txt") = none)
    (hst : args.save_txt = true) (hsi : args.save_img = true)
    (hlab : ∀ c ∈ p.labels, 0 ≤ c ∧ c.toNat < args.names.length)
    (hcol : ∀ c ∈ p.labels, 0 ≤ c ∧ c.toNat < args.colors.length)
    (hn : 0 < predLen p) :
    overlay_boxes env [some p] path args =
      ((((p.boxes.map roundBox).zip (p.scores.zip p.labels)).map fun r =>
          Event.appendTxt (args.output_dir ++ "/" ++ pathStem path ++ ".txt")
            (lineFor r.2.2 r.1)) ++
        [Event.printDone 0 ((uniqueSorted p.labels).map fun c =>
          (p.labels.count c, args.names.getD c.toNat ""))] ++
        (if args.mode == "images" then
          [Event.saveImg (args.output_dir ++ "/" ++ pathName path)
            (((p.boxes.map roundBox).zip (p.scores.zip p.labels)).map fun r =>
              (r.1, r.2.2))]
        else []),
       Except.ok (p.boxes.map roundBox, p.scores, p.labels)) := by
  have hmem : ∀ r ∈ (p.boxes.map roundBox).zip (p.scores.zip p.labels),
      r.2.2 ∈ p.labels := by
    intro r hr
    obtain ⟨b, s, c⟩ := r
    exact (List.of_mem_zip (List.of_mem_zip hr).2).2
  have hsum := classSummary_ok args.names p.labels hlab
  have hw2 := wd_eq_img env args hW hst hsi
    ((p.boxes.map roundBox).zip (p.scores.zip p.labels)) []
    (fun r hr => hlab r.2.2 (hmem r hr))
    (fun r hr => hcol r.2.2 (hmem r hr))
  unfold overlay_boxes
  simp [overlayLoop, hn, hsum, hw2, hsi]

/-- Witness for C2 (amended) on the concrete prediction `pred0`, with a
stream/video dataset mode: the label line is appended, boxes are drawn, and
no image file is written. -/
theorem c2_amended_w :
    overlay_boxes env0 [some pred0] "imgs/a.jpg" argsW2 =
      ((((pred0.boxes.map roundBox).zip (pred0.scores.zip pred0.labels)).map fun r =>
          Event.appendTxt (argsW2.output_dir ++ "/" ++ pathStem "imgs/a.jpg" ++ ".txt")
            (lineFor r.2.2 r.1)) ++
        [Event.printDone 0 ((uniqueSorted pred0.labels).map fun c =>
          (pred0.labels.count c, argsW2.names.getD c.toNat ""))] ++
        (if argsW2.mode == "images" then
          [Event.saveImg (argsW2.output_dir ++ "/" ++ pathName "imgs/a.jpg")
            (((pred0.boxes.map roundBox).zip (pred0.scores.zip pred0.labels)).map fun r =>
              (r.1, r.2.2))]
        else []),
       Except.ok (pred0.boxes.map roundBox, pred0.scores, pred0.labels)) :=
  c2_amended env0 argsW2 "imgs/a.jpg" pred0 rfl rfl rfl (by decide) (by decide)
    (by decide)

/-- C7 counterexample: a non-empty prediction whose class lies outside the
label map makes post-processing raise `IndexError` at the name lookup of
line 67, before any write or print: with `save_txt` set, no label line is
written at all, refuting the claim for arbitrary non-empty predictions. -/
theorem c7_cex :
    overlay_boxes env0 [some pred5] "imgs/a.jpg" args7 =
      ([], Except.error PyErr.indexError) := by
  decide

/-- C7 (amended): post-processing a non-empty prediction whose classes lie
within the label map rounds the boxes to whole numbers (every coordinate
becomes an integer), prints the per-class count summary, and with `save_txt`
set appends one line per detection of exactly five numbers — the class label
followed by the box converted from corner (xyxy) form to center-x, center-y,
width, height form. -/
theorem c7_postprocess (env : Env) (args : Args) (path : String) (p : Pred)
    (hW : env.appendOk (args.output_dir ++ "/" ++ pathStem path ++ ".txt") = none)
    (hst : args.save_txt = true) (hsi : args.save_img = false)
    (hlab : ∀ c ∈ p.labels, 0 ≤ c ∧ c.toNat < args.names.length)
    (hn : 0 < predLen p) :
    (overlay_boxes env [some p] path args =
      ((((p.boxes.map roundBox).zip (p.scores.zip p.labels)).map fun r =>
          Event.appendTxt (args.output_dir ++ "/" ++ pathStem path ++ ".txt")
            (lineFor r.2.2 r.1)) ++
        [Event.printDone 0 ((uniqueSorted p.labels).map fun c =>
          (p.labels.count c, args.names.getD c.toNat ""))],
       Except.ok (p.boxes.map roundBox, p.scores, p.labels))) ∧
      (∀ cls : ℤ, ∀ b : Box, lineFor cls b =
          [(cls : ℚ), (b.x0 + b.x1) / 2, (b.y0 + b.y1) / 2,
           b.x1 - b.x0, b.y1 - b.y0] ∧
        (lineFor cls b).length = 5) ∧
      (∀ b : Box, (roundBox b).x0.den = 1 ∧ (roundBox b).y0.den = 1 ∧
        (roundBox b).x1.den = 1 ∧ (roundBox b).y1.den = 1) := by
  refine ⟨?_, fun cls b => ⟨rfl, rfl⟩, fun b => ?_⟩
  · have hsum := classSummary_ok args.names p.labels hlab
    have hw2 := wd_eq_noimg env args hW hst hsi
      ((p.boxes.map roundBox).zip (p.scores.zip p.labels)) []
    unfold overlay_boxes
    simp [overlayLoop, hn, hsum, hw2, hsi]
  · simp [roundBox, Rat.den_intCast]

/-- Witness for C7 on the concrete prediction `pred0`. -/
theorem c7_postprocess_w :
    (overlay_boxes env0 [some pred0] "imgs/a.jpg" args7 =
      ((((pred0.boxes.map roundBox).zip (pred0.scores.zip pred0.labels)).map fun r =>
          Event.appendTxt (args7.output_dir ++ "/" ++ pathStem "imgs/a.jpg" ++ ".txt")
            (lineFor r.2.2 r.1)) ++
        [Event.printDone 0 ((uniqueSorted pred0.labels).map fun c =>
          (pred0.labels.count c, args7.names.getD c.toNat ""))],
       Except.ok (pred0.boxes.map roundBox, pred0.scores, pred0.labels))) ∧
      (∀ cls : ℤ, ∀ b : Box, lineFor cls b =
          [(cls : ℚ), (b.x0 + b.x1) / 2, (b.y0 + b.y1) / 2,
           b.x1 - b.x0, b.y1 - b.y0] ∧
        (lineFor cls b).length = 5) ∧
      (∀ b : Box, (roundBox b).x0.den = 1 ∧ (roundBox b).y0.den = 1 ∧
        (roundBox b).x1.den = 1 ∧ (roundBox b).y1.den = 1) :=
  c7_postprocess env0 args7 "imgs/a.jpg" pred0 rfl rfl rfl (by decide) (by decide)

/-- An `IndexError` raised by the per-class summary of lines 65-67 aborts
`overlay_boxes` with that exact exception, before any write happens. -/
theorem overlay_summary_err (env : Env) (args : Args) (path : String)
    (pr : Pred) (more : List (Option Pred)) {e : PyErr}
    (hsum : classSummary args.names pr.labels = Except.error e)
    (hbx : 0 < pr.boxes.length) :
    (overlay_boxes env (some pr :: more) path args).2 = Except.error e := by
  have hn : 0 < predLen pr := hbx
  unfold overlay_boxes
  simp [overlayLoop, hn, hsum]

/-- A failing append-open on the label file aborts `overlay_boxes` with that
exact exception (first prediction non-empty, its classes within the label
map so line 67 passes, `save_txt` set). -/
theorem overlay_write_err (env : Env) (args : Args) (path : String) (pr : Pred)
    (more : List (Option Pred)) {e : PyErr}
    (happ : env.appendOk (args.output_dir ++ "/" ++ pathStem path ++ ".txt") = some e)
    (hst : args.save_txt = true)
    (hlab : ∀ c ∈ pr.labels, 0 ≤ c ∧ c.toNat < args.names.length)
    (hbx : 0 < pr.boxes.length) (hsc : 0 < pr.scores.length)
    (hlb : 0 < pr.labels.length) :
    (overlay_boxes env (some pr :: more) path args).2 = Except.error e := by
  have hsum := classSummary_ok args.names pr.labels hlab
  have hn : 0 < predLen pr := hbx
  have hrlen : 0 < ((pr.boxes.map roundBox).zip (pr.scores.zip pr.labels)).length := by
    simp only [List.length_zip, List.length_map]
    omega
  obtain ⟨row, rows2, hrows⟩ :=
    List.exists_cons_of_ne_nil (List.ne_nil_of_length_pos hrlen)
  have hwd : writeDetections env args
      (args.output_dir ++ "/" ++ pathStem path ++ ".txt")
      ((pr.boxes.map roundBox).zip (pr.scores.zip pr.labels)) [] =
      ⟨[], [], some e⟩ := by
    rw [hrows]
    obtain ⟨xyxy, conf, cls⟩ := row
    simp [writeDetections, hst, happ]
  unfold overlay_boxes
  simp [overlayLoop, hn, hsum, hwd]

/-- C3: no step catches or transforms exceptions: whichever call fails
first — the checkpoint load, the label-map read, an image read, the
class-name lookup of line 67, or a label-file write — `run_detect` returns
exactly that exception, unchanged, with no recovery, retry or fallback. -/
theorem c3_propagation (env : Env) (a : ArgsIn) :
    (∀ e : PyErr, env.loadCheckpoint a.model_cfg a.checkpoint = Except.error e →
        (run_detect env a).2 = Except.error e) ∧
      (∀ e : PyErr, ∀ model : Model,
        env.loadCheckpoint a.model_cfg a.checkpoint = Except.ok model →
        env.readLines a.labelmap = Except.error e →
          (run_detect env a).2 = Except.error e) ∧
      (∀ e : PyErr, ∀ model : Model, ∀ ls : List String, ∀ p : String,
        ∀ rest : List String,
        env.loadCheckpoint a.model_cfg a.checkpoint = Except.ok model →
        env.readLines a.labelmap = Except.ok ls →
        env.datasetPaths a.input_source = p :: rest →
        env.imread p = Except.error e →
          (run_detect env a).2 = Except.error e) ∧
      (∀ e : PyErr, ∀ model : Model, ∀ ls : List String, ∀ p : String,
        ∀ rest : List String, ∀ img : Tensor3, ∀ pr : Pred,
        ∀ more : List (Option Pred),
        env.loadCheckpoint a.model_cfg a.checkpoint = Except.ok model →
        env.readLines a.labelmap = Except.ok ls →
        env.datasetPaths a.input_source = p :: rest →
        env.imread p = Except.ok img →
        model.forward (toDevice (permute201 (divScalar img 255)) (deviceOf env a)) =
          some pr :: more →
        0 < pr.boxes.length →
        classSummary (ls.map String.trim) pr.labels = Except.error e →
          (run_detect env a).2 = Except.error e) ∧
      (∀ e : PyErr, ∀ model : Model, ∀ ls : List String, ∀ p : String,
        ∀ rest : List String, ∀ img : Tensor3, ∀ pr : Pred,
        ∀ more : List (Option Pred),
        env.loadCheckpoint a.model_cfg a.checkpoint = Except.ok model →
        env.readLines a.labelmap = Except.ok ls →
        env.datasetPaths a.input_source = p :: rest →
        env.imread p = Except.ok img →
        model.forward (toDevice (permute201 (divScalar img 255)) (deviceOf env a)) =
          some pr :: more →
        0 < pr.boxes.length → 0 < pr.scores.length → 0 < pr.labels.length →
        (∀ c ∈ pr.labels, 0 ≤ c ∧ c.toNat < (ls.map String.trim).length) →
        a.save_txt = true →
        env.appendOk (a.output_dir ++ "/" ++ pathStem p ++ ".txt") = some e →
          (run_detect env a).2 = Except.error e) := by
  refine ⟨?_, ?_, ?_, ?_, ?_⟩
  · intro e h
    rw [run_detect_eq]
    show (main env a).2 = Except.error e
    unfold main
    rw [h]
    rfl
  · intro e model hm hr
    rw [run_detect_eq]
    show (main env a).2 = Except.error e
    unfold main load_names
    rw [hm, hr]
    rfl
  · intro e model ls p rest hm hr hp hi
    rw [run_detect_eq]
    show (main env a).2 = Except.error e
    unfold main load_names
    rw [hm, hr, hp]
    have h2 := inference_of_err model (deviceOf env a) false hi
    have h3 : (imageStep env (mainArgs env a (ls.map String.trim)) model
        (deviceOf env a) p).2 = Except.error e := by
      unfold imageStep
      rw [mbind_of_err _ _ (show (inference env model p (deviceOf env a) false).2 =
        Except.error e by rw [h2])]
    have h4 := mbind_of_err
      (imageStep env (mainArgs env a (ls.map String.trim)) model (deviceOf env a) p)
      (fun _ => detectLoop env (mainArgs env a (ls.map String.trim)) model
        (deviceOf env a) rest) h3
    show (detectLoop env (mainArgs env a (ls.map String.trim)) model (deviceOf env a)
      (p :: rest)).2 = Except.error e
    rw [detectLoop, h4]
  · intro e model ls p rest img pr more hm hr hp hi hf hbx hsum
    rw [run_detect_eq]
    show (main env a).2 = Except.error e
    unfold main load_names
    rw [hm, hr, hp]
    have h2 := inference_of_ok model (deviceOf env a) false hi
    have hov := overlay_summary_err env (mainArgs env a (ls.map String.trim)) p pr
      more hsum hbx
    have h3 : (imageStep env (mainArgs env a (ls.map String.trim)) model
        (deviceOf env a) p).2 = Except.error e := by
      unfold imageStep
      rw [mbind_of_ok _ _ (show (inference env model p (deviceOf env a) false).2 =
        Except.ok (model.forward (toDevice (permute201 (divScalar img 255))
          (deviceOf env a))) by rw [h2])]
      show (overlay_boxes env (model.forward (toDevice (permute201 (divScalar img 255))
        (deviceOf env a))) p (mainArgs env a (ls.map String.trim))).2 = Except.error e
      rw [hf]
      exact hov
    have h4 := mbind_of_err
      (imageStep env (mainArgs env a (ls.map String.trim)) model (deviceOf env a) p)
      (fun _ => detectLoop env (mainArgs env a (ls.map String.trim)) model
        (deviceOf env a) rest) h3
    show (detectLoop env (mainArgs env a (ls.map String.trim)) model (deviceOf env a)
      (p :: rest)).2 = Except.error e
    rw [detectLoop, h4]
  · intro e model ls p rest img pr more hm hr hp hi hf hbx hsc hlb hlab hst happ
    rw [run_detect_eq]
    show (main env a).2 = Except.error e
    unfold main load_names
    rw [hm, hr, hp]
    have h2 := inference_of_ok model (deviceOf env a) false hi
    have hov := overlay_write_err env (mainArgs env a (ls.map String.trim)) p pr
      more happ hst hlab hbx hsc hlb
    have h3 : (imageStep env (mainArgs env a (ls.map String.trim)) model
        (deviceOf env a) p).2 = Except.error e := by
      unfold imageStep
      rw [mbind_of_ok _ _ (show (inference env model p (deviceOf env a) false).2 =
        Except.ok (model.forward (toDevice (permute201 (divScalar img 255))
          (deviceOf env a))) by rw [h2])]
      show (overlay_boxes env (model.forward (toDevice (permute201 (divScalar img 255))
        (deviceOf env a))) p (mainArgs env a (ls.map String.trim))).2 = Except.error e
      rw [hf]
      exact hov
    have h4 := mbind_of_err
      (imageStep env (mainArgs env a (ls.map String.trim)) model (deviceOf env a) p)
      (fun _ => detectLoop env (mainArgs env a (ls.map String.trim)) model
        (deviceOf env a) rest) h3
    show (detectLoop env (mainArgs env a (ls.map String.trim)) model (deviceOf env a)
      (p :: rest)).2 = Except.error e
    rw [detectLoop, h4]

/-- Witness for C3: five concrete worlds in which, respectively, the
checkpoint load, the label-map read, the image read, the line-67 class-name
lookup (empty label map), and the label-file append fail; the run reports
exactly that error each time. -/
theorem c3_propagation_w :
    (run_detect envE1 a0).2 = Except.error (PyErr.ioError "ckpt") ∧
      (run_detect envE2 a0).2 = Except.error (PyErr.ioError "labelmap") ∧
      (run_detect envE3 a0).2 = Except.error (PyErr.ioError "img") ∧
      (run_detect envE5 a0).2 = Except.error PyErr.indexError ∧
      (run_detect envE4 a1).2 = Except.error (PyErr.ioError "disk") :=
  ⟨(c3_propagation envE1 a0).1 (PyErr.ioError "ckpt") rfl,
   (c3_propagation envE2 a0).2.1 (PyErr.ioError "labelmap") model0 rfl rfl,
   (c3_propagation envE3 a0).2.2.1 (PyErr.ioError "img") model0 ["person", "car"]
     "imgs/a.jpg" [] rfl rfl rfl rfl,
   (c3_propagation envE5 a0).2.2.2.1 PyErr.indexError model0 [] "imgs/a.jpg" []
     tensor0 pred0 [] rfl rfl rfl rfl rfl (by decide) (by decide),
   (c3_propagation envE4 a1).2.2.2.2 (PyErr.ioError "disk") model0 ["person", "car"]
     "imgs/a.jpg" [] tensor0 pred0 [] rfl rfl rfl rfl rfl
     (by decide) (by decide) (by decide) (by decide) rfl rfl⟩

/-- C4: image processing is strictly sequential: the loop over the dataset
handles the head path completely — its forward pass first, then only
post-processing events — before any event of the remaining paths, which are
processed by the same loop afterwards. -/
theorem c4_sequential (env : Env) (args : Args) (model : Model) (dev : Device)
    (p : String) (rest : List String) (r : Ret)
    (h : (imageStep env args model dev p).2 = Except.ok r) :
    (detectLoop env args model dev (p :: rest)).1 =
        (imageStep env args model dev p).1 ++ (detectLoop env args model dev rest).1 ∧
      (detectLoop env args model dev (p :: rest)).2 =
        (detectLoop env args model dev rest).2 ∧
      ∃ tl, (imageStep env args model dev p).1 = Event.forwardPass p :: tl ∧
        tl.all isPostProcEvent = true := by
  have hd := mbind_of_ok (imageStep env args model dev p)
    (fun _ => detectLoop env args model dev rest) h
  refine ⟨?_, ?_, imageStep_shape h⟩
  · rw [detectLoop, hd]
  · rw [detectLoop, hd]

/-- Witness for C4 on a one-image dataset. -/
theorem c4_sequential_w :
    (detectLoop env0 args0 model0 Device.cpu ["imgs/a.jpg"]).1 =
        (imageStep env0 args0 model0 Device.cpu "imgs/a.jpg").1 ++
          (detectLoop env0 args0 model0 Device.cpu []).1 ∧
      (detectLoop env0 args0 model0 Device.cpu ["imgs/a.jpg"]).2 =
        (detectLoop env0 args0 model0 Device.cpu []).2 ∧
      ∃ tl, (imageStep env0 args0 model0 Device.cpu "imgs/a.jpg").1 =
          Event.forwardPass "imgs/a.jpg" :: tl ∧ tl.all isPostProcEvent = true :=
  c4_sequential env0 args0 model0 Device.cpu "imgs/a.jpg" []
    ([(⟨0, 0, 2, 2⟩ : Box)], [(9 : ℚ) / 10], [(1 : ℤ)]) (by decide)

/-- C1: a successful run performs exactly: argument parsing, then the (single)
checkpoint load, then the warm-up, then one segment per dataset path in the
dataset's order, each segment being that path's forward pass followed only by
its post-processing events; the checkpoint-load event occurs exactly once in
the whole trace, before any image is touched. -/
theorem c1_pipeline (env : Env) (a : ArgsIn) (model : Model) (ls : List String)
    (hm : env.loadCheckpoint a.model_cfg a.checkpoint = Except.ok model)
    (hr : env.readLines a.labelmap = Except.ok ls)
    (hok : (run_detect env a).2 = Except.ok ()) :
    (run_detect env a).1 =
        Event.parseArgs :: Event.loadModel a.checkpoint ::
          Event.warmup (check_img_size a.img_size model.stride) ::
          (env.datasetPaths a.input_source).flatMap
            (fun p => (imageStep env (mainArgs env a (ls.map String.trim)) model
              (deviceOf env a) p).1) ∧
      (run_detect env a).1.countP isLoadModelEv = 1 ∧
      ∀ p ∈ env.datasetPaths a.input_source,
        ∃ tl, (imageStep env (mainArgs env a (ls.map String.trim)) model
            (deviceOf env a) p).1 = Event.forwardPass p :: tl ∧
          tl.all isPostProcEvent = true := by
  have hmain : main env a =
      (Event.loadModel a.checkpoint ::
        Event.warmup (check_img_size a.img_size model.stride) ::
        (detectLoop env (mainArgs env a (ls.map String.trim)) model (deviceOf env a)
          (env.datasetPaths a.input_source)).1,
       (detectLoop env (mainArgs env a (ls.map String.trim)) model (deviceOf env a)
          (env.datasetPaths a.input_source)).2) := by
    unfold main load_names
    rw [hm, hr]
    rfl
  have hok2 : (detectLoop env (mainArgs env a (ls.map String.trim)) model
      (deviceOf env a) (env.datasetPaths a.input_source)).2 = Except.ok () := by
    have h5 := hok
    rw [run_detect_eq, hmain] at h5
    exact h5
  obtain ⟨hbind, hsteps⟩ := detectLoop_ok env (mainArgs env a (ls.map String.trim))
    model (deviceOf env a) (env.datasetPaths a.input_source) hok2
  have hshape : ∀ p ∈ env.datasetPaths a.input_source,
      ∃ tl, (imageStep env (mainArgs env a (ls.map String.trim)) model
          (deviceOf env a) p).1 = Event.forwardPass p :: tl ∧
        tl.all isPostProcEvent = true := by
    intro q hq
    obtain ⟨r, hrq⟩ := hsteps q hq
    exact imageStep_shape hrq
  refine ⟨?_, ?_, hshape⟩
  · simp only [run_detect_eq, hmain, hbind]
  · have h0 := bind_countP_loadModel_zero env (mainArgs env a (ls.map String.trim))
      model (deviceOf env a) (env.datasetPaths a.input_source) hshape
    simp only [run_detect_eq, hmain, hbind]
    simp [List.countP_cons, isLoadModelEv, h0]

/-- Witness for C1: a complete successful run over a one-image dataset. -/
theorem c1_pipeline_w :
    (run_detect env0 a0).1 =
        Event.parseArgs :: Event.loadModel a0.checkpoint ::
          Event.warmup (check_img_size a0.img_size model0.stride) ::
          (env0.datasetPaths a0.input_source).flatMap
            (fun p => (imageStep env0 (mainArgs env0 a0
              (["person", "car"].map String.trim)) model0 (deviceOf env0 a0) p).1) ∧
      (run_detect env0 a0).1.countP isLoadModelEv = 1 ∧
      ∀ p ∈ env0.datasetPaths a0.input_source,
        ∃ tl, (imageStep env0 (mainArgs env0 a0 (["person", "car"].map String.trim))
            model0 (deviceOf env0 a0) p).1 = Event.forwardPass p :: tl ∧
          tl.all isPostProcEvent = true :=
  c1_pipeline env0 a0 model0 ["person", "car"] rfl rfl (by decide)

end ClaimEval

end Detect
